import Mathlib

/-!
Shallow embedding of the job-queue repository (Python sources under `app/`):
the `jobs` table (models/base_model.py, models/jobs_model.py), the repository
layer (repositories/base_repository.py, repositories/job_repository.py), the
service layer (services/job_service.py), the handler registry
(workers/handlers.py) and the worker poll loop (workers/worker.py).

Modelling conventions:
* timestamps are exact rationals, measured in minutes since an arbitrary epoch
  (the retry backoff `2 ** (attempts - 1)` is in minutes and can be the
  non-integer `1/2` when `attempts = 0`);
* a database table is a `List Jobs`; SQL statements become list traversals;
* JSON payloads are modelled by an inductive `Json`, objects as association
  lists in insertion order (Python `dict` preserves insertion order);
* ISO-8601 rendering of a timestamp is abstracted as `toString` of the
  rational (the claims never inspect the format);
* fallible paths return `Except`; a rolled-back transaction is modelled by
  returning the original table (or by the error carrying no table at all).
-/

set_option autoImplicit false

namespace JobQueue

/-- JSON values, for the `payload` column (`Column(JSON)` in jobs_model.py). -/
inductive Json where
  | str (s : String)
  | num (q : ℚ)
  | bool (b : Bool)
  | null
  | arr (elems : List Json)
  | obj (fields : List (String × Json))

/-- A JSON object, as stored in the `payload` column (insertion-ordered dict). -/
abbrev Payload := List (String × Json)

/-- Python `dict` membership / lookup on a JSON object. -/
def lookupKey (o : Payload) (k : String) : Option Json :=
  match o with
  | [] => none
  | (k', v) :: rest => if k' = k then some v else lookupKey rest k

/-- Python `dict` assignment `o[k] = v`: replaces the value in place when the
key exists, otherwise appends the new key at the end (insertion order). -/
def setKey (o : Payload) (k : String) (v : Json) : Payload :=
  match o with
  | [] => [(k, v)]
  | (k', v') :: rest => if k' = k then (k, v) :: rest else (k', v') :: setKey rest k v

/-- `QueueStatus` enum (constants/queue_status.py). The DB column is a string,
but every write in the repository uses one of these enum values. -/
inductive QueueStatus where
  | pending
  | running
  | completed
  | failed
  | cancelled
deriving DecidableEq, Repr

/-- A row of the `jobs` table: columns of `BaseModel` (models/base_model.py)
plus `Jobs` (models/jobs_model.py). Timestamps are rational minutes since an
epoch; `attempts`/`max_tries` are integers (`Column(Integer)`). -/
structure Jobs where
  id : ℕ
  queue_name : String
  job_type : String
  payload : Payload
  status : QueueStatus
  scheduled_at : ℚ
  attempts : ℤ
  max_tries : ℤ
  created_at : ℚ
  updated_at : ℚ
  is_deleted : Bool
  deleted_at : Option ℚ

/-- `AsyncBaseRepository.get` (base_repository.py:53-59): select the row with
the given id, subject to the soft-delete filter `is_deleted == False` of
`_get_base_query`. -/
def getJob (t : List Jobs) (job_id : ℕ) : Option Jobs :=
  (t.filter (fun j => !j.is_deleted)).find? (fun j => j.id == job_id)

/-- `AsyncBaseRepository.update` (base_repository.py:125-156) applied through
`get`: mutate the non-deleted row with the given id (`updated_at` is set by
each caller's update function `f`). -/
def updateById (t : List Jobs) (job_id : ℕ) (f : Jobs → Jobs) : List Jobs :=
  t.map (fun j => if j.id = job_id ∧ j.is_deleted = false then f j else j)

/-- Claim eligibility: the `WHERE` clause of the claim subquery
(job_repository.py:67-71): `status = pending`, `queue_name = ANY(queue_names)`,
`scheduled_at <= now`, `(is_deleted = false OR is_deleted IS NULL)` (the
column is non-nullable, so the null disjunct is vacuous). -/
def eligible (now : ℚ) (queue_names : List String) (j : Jobs) : Bool :=
  decide (j.status = QueueStatus.pending) && queue_names.contains j.queue_name &&
    decide (j.scheduled_at ≤ now) && !j.is_deleted

/-- Strict lexicographic order on `(scheduled_at, id)`, the sort key of
`ORDER BY scheduled_at ASC, id ASC` (job_repository.py:72). -/
def keyLt (a b : Jobs) : Prop :=
  a.scheduled_at < b.scheduled_at ∨ (a.scheduled_at = b.scheduled_at ∧ a.id < b.id)

/-- Reflexive lexicographic order on `(scheduled_at, id)`. -/
def keyLe (a b : Jobs) : Prop :=
  a.scheduled_at < b.scheduled_at ∨ (a.scheduled_at = b.scheduled_at ∧ a.id ≤ b.id)

instance (a b : Jobs) : Decidable (keyLt a b) := by unfold keyLt; exact inferInstance

instance (a b : Jobs) : Decidable (keyLe a b) := by unfold keyLe; exact inferInstance

/-- `ORDER BY scheduled_at ASC, id ASC ... LIMIT 1` over a list of candidate
rows: the least row under `keyLt`, `none` on an empty candidate set. -/
def pickMin : List Jobs → Option Jobs
  | [] => none
  | j :: js =>
    match pickMin js with
    | none => some j
    | some c => if keyLt c j then some c else some j

/-- The `SET` clause of the claim statement (job_repository.py:62-65):
`status = running`, `attempts = attempts + 1`, `updated_at = now`. -/
def claimedUpdate (now : ℚ) (j : Jobs) : Jobs :=
  { j with status := QueueStatus.running, attempts := j.attempts + 1, updated_at := now }

/-- `JobRepository.claim_next_job` (job_repository.py:46-99), success path: the
single SQL statement picks the least eligible row by `(scheduled_at, id)`,
updates every row with that id in place, and returns the updated row.
`FOR UPDATE SKIP LOCKED` only affects concurrent transactions and is invisible
in this sequential model. -/
def claim_next_job (t : List Jobs) (queue_names : List String) (now : ℚ) :
    List Jobs × Option Jobs :=
  match pickMin (t.filter (eligible now queue_names)) with
  | none => (t, none)
  | some c =>
    (t.map (fun x => if x.id = c.id then claimedUpdate now x else x), some (claimedUpdate now c))

/-! ### Order lemmas for the claim selection -/

theorem keyLe_refl (a : Jobs) : keyLe a a := Or.inr ⟨rfl, le_refl _⟩

theorem keyLt_le (a b : Jobs) (h : keyLt a b) : keyLe a b := by
  rcases h with h | ⟨h1, h2⟩
  · exact Or.inl h
  · exact Or.inr ⟨h1, le_of_lt h2⟩

theorem keyLe_trans (a b c : Jobs) (hab : keyLe a b) (hbc : keyLe b c) : keyLe a c := by
  rcases hab with h | ⟨h1, h2⟩ <;> rcases hbc with g | ⟨g1, g2⟩
  · exact Or.inl (lt_trans h g)
  · exact Or.inl (g1 ▸ h)
  · exact Or.inl (h1 ▸ g)
  · exact Or.inr ⟨h1.trans g1, le_trans h2 g2⟩

theorem keyLe_of_not_lt (a b : Jobs) (h : ¬ keyLt a b) : keyLe b a := by
  unfold keyLt at h
  push_neg at h
  obtain ⟨h1, h2⟩ := h
  rcases eq_or_lt_of_le h1 with heq | hlt
  · exact Or.inr ⟨heq, h2 heq.symm⟩
  · exact Or.inl hlt

theorem pickMin_eq_none {l : List Jobs} : pickMin l = none ↔ l = [] := by
  constructor
  · intro h
    cases l with
    | nil => rfl
    | cons j js =>
      simp only [pickMin] at h
      cases hrec : pickMin js with
      | none => rw [hrec] at h; simp at h
      | some m => rw [hrec] at h; by_cases hlt : keyLt m j <;> simp [hlt] at h
  · intro h; subst h; rfl

theorem pickMin_mem : ∀ (l : List Jobs) (c : Jobs), pickMin l = some c → c ∈ l := by
  intro l
  induction l with
  | nil => intro c h; simp [pickMin] at h
  | cons j js ih =>
    intro c h
    simp only [pickMin] at h
    cases hrec : pickMin js with
    | none => rw [hrec] at h; simp at h; simp [h]
    | some m =>
      rw [hrec] at h
      by_cases hlt : keyLt m j
      · simp [hlt] at h; subst h; exact List.mem_cons_of_mem _ (ih _ hrec)
      · simp [hlt] at h; simp [h]

theorem pickMin_le : ∀ (l : List Jobs) (c : Jobs), pickMin l = some c →
    ∀ x ∈ l, keyLe c x := by
  intro l
  induction l with
  | nil => intro c h; simp [pickMin] at h
  | cons j js ih =>
    intro c h x hx
    simp only [pickMin] at h
    cases hrec : pickMin js with
    | none =>
      rw [hrec] at h
      simp at h
      subst h
      rw [pickMin_eq_none] at hrec
      subst hrec
      rcases List.mem_cons.mp hx with hxj | hxjs
      · subst hxj; exact keyLe_refl _
      · simp at hxjs
    | some m =>
      rw [hrec] at h
      by_cases hlt : keyLt m j
      · simp [hlt] at h
        subst h
        rcases List.mem_cons.mp hx with hxj | hxjs
        · subst hxj; exact keyLt_le _ _ hlt
        · exact ih _ hrec x hxjs
      · simp [hlt] at h
        subst h
        rcases List.mem_cons.mp hx with hxj | hxjs
        · subst hxj; exact keyLe_refl _
        · exact keyLe_trans _ _ _ (keyLe_of_not_lt _ _ hlt) (ih _ hrec x hxjs)

/-- `JobRepository.enqueue_job` (job_repository.py:18-44) with
`AsyncBaseRepository.create` (base_repository.py:23-35): insert a fresh
pending row with `attempts = 0`; `scheduled_at` defaults to `now`; the id is
assigned by the store and is modelled as a parameter. -/
def enqueue_job (t : List Jobs) (job_type : String) (payload : Payload)
    (queue_name : String) (scheduled_at : Option ℚ) (max_tries : ℤ)
    (now : ℚ) (new_id : ℕ) : List Jobs × Jobs :=
  let job : Jobs :=
    { id := new_id, queue_name := queue_name, job_type := job_type, payload := payload,
      status := QueueStatus.pending, scheduled_at := scheduled_at.getD now,
      attempts := 0, max_tries := max_tries, created_at := now, updated_at := now,
      is_deleted := false, deleted_at := none }
  (t ++ [job], job)

/-- The error-trail entry built by `mark_job_failed` (job_repository.py:150-154):
`{"attempt": attempts, "error": message, "timestamp": now.isoformat()}`. -/
def errorEntry (attempts : ℤ) (msg : String) (now : ℚ) : Json :=
  Json.obj [("attempt", Json.num (attempts : ℚ)), ("error", Json.str msg),
    ("timestamp", Json.str (toString now))]

/-- A Python exception escaping a repository call before any write happens. -/
inductive PyError where
  | attributeError (msg : String)
deriving DecidableEq, Repr

/-- Payload mutation of `mark_job_failed` (job_repository.py:146-155): when the
payload dict is truthy (non-empty), the `"errors"` key is created as `[]` when
absent and the entry appended. When the payload already binds `"errors"` to a
non-array value, `job.payload["errors"].append(...)` raises `AttributeError`
— modelled as `none`; a falsy (empty) payload skips the whole block. -/
def appendError (p : Payload) (attempts : ℤ) (msg : String) (now : ℚ) :
    Option Payload :=
  if p.isEmpty then some p
  else
    match lookupKey p "errors" with
    | none => some (setKey p "errors" (Json.arr [errorEntry attempts msg now]))
    | some (Json.arr xs) =>
      some (setKey p "errors" (Json.arr (xs ++ [errorEntry attempts msg now])))
    | some _ => none

/-- The payload shapes on which the error-trail block of `mark_job_failed`
completes without raising: an empty (falsy) payload, no pre-existing
`"errors"` key, or an array-valued one. -/
def errorsAppendable (p : Payload) : Prop :=
  p = [] ∨ lookupKey p "errors" = none ∨ ∃ xs, lookupKey p "errors" = some (Json.arr xs)

/-- The retry delay `2 ** (job.attempts - 1)` minutes (job_repository.py:159);
the exponent is an integer, so at `attempts = 0` the delay is half a minute. -/
def retryDelayMinutes (attempts : ℤ) : ℚ := (2 : ℚ) ^ (attempts - 1)

/-- `JobRepository.mark_job_failed` (job_repository.py:124-162): fetch the job;
retry iff requested and `attempts < max_tries`; append the error entry to a
truthy payload — on the `AttributeError` path the exception propagates before
`self.update` runs, so nothing is written; otherwise write through
`AsyncBaseRepository.update` (which also sets `updated_at`), scheduling
`now + 2 ** (attempts - 1)` minutes ahead when retrying, and return the
updated row. -/
def mark_job_failed (t : List Jobs) (job_id : ℕ) (error_message : String)
    (retry : Bool) (now : ℚ) : Except PyError (List Jobs × Option Jobs) :=
  match getJob t job_id with
  | none => Except.ok (t, none)
  | some job =>
    let should_retry := retry && decide (job.attempts < job.max_tries)
    match appendError job.payload job.attempts error_message now with
    | none => Except.error (PyError.attributeError "object has no attribute append")
    | some newPayload =>
      let upd : Jobs → Jobs := fun j =>
        { j with
          status := if should_retry then QueueStatus.pending else QueueStatus.failed,
          payload := newPayload,
          scheduled_at := if should_retry then now + retryDelayMinutes job.attempts
            else j.scheduled_at,
          updated_at := now }
      Except.ok (updateById t job_id upd, some (upd job))

/-- The stored table after a `mark_job_failed` call: the written table on
success; on the `AttributeError` path the exception propagates before any
write and the caller's session rolls back, so the table is unchanged. -/
def markFailedTable (t : List Jobs) (job_id : ℕ) (msg : String) (retry : Bool)
    (now : ℚ) : List Jobs :=
  match mark_job_failed t job_id msg retry now with
  | Except.ok r => r.1
  | Except.error _ => t

/-- The row returned by `mark_job_failed` on success; `none` when the job is
missing or the call raises. -/
def markFailedRow (t : List Jobs) (job_id : ℕ) (msg : String) (retry : Bool)
    (now : ℚ) : Option Jobs :=
  match mark_job_failed t job_id msg retry now with
  | Except.ok r => r.2
  | Except.error _ => none

/-- `JobRepository.retry_failed_job` (job_repository.py:318-339): only a
non-deleted row in `failed` status is moved back to `pending` with
`scheduled_at = now`; `attempts` is zeroed only when `reset_attempts`. -/
def retry_failed_job (t : List Jobs) (job_id : ℕ) (reset_attempts : Bool)
    (now : ℚ) : List Jobs × Option Jobs :=
  match getJob t job_id with
  | none => (t, none)
  | some job =>
    if job.status ≠ QueueStatus.failed then (t, none)
    else
      let upd : Jobs → Jobs := fun j =>
        { j with
          status := QueueStatus.pending, scheduled_at := now,
          attempts := if reset_attempts then 0 else j.attempts, updated_at := now }
      (updateById t job_id upd, some (upd job))

/-- `AsyncBaseRepository.bulk_update` (base_repository.py:191-221) at the call
site in `reset_stale_jobs`: a raw UPDATE over every row with
`status = running` (no soft-delete filter) setting `status = pending`,
`scheduled_at = now` and `updated_at = now`. -/
def resetRunningBulkUpdate (t : List Jobs) (now : ℚ) : List Jobs :=
  t.map fun j =>
    if j.status = QueueStatus.running then
      { j with status := QueueStatus.pending, scheduled_at := now, updated_at := now }
    else j

/-- `JobRepository.reset_stale_jobs` (job_repository.py:224-260): the bulk
update above first moves every running row to pending; the second UPDATE then
matches rows with `status = pending` and `updated_at < now - timeout`,
re-writing `status = pending` (and, through the column's `onupdate`,
`updated_at = now`); the row count of that second statement is returned. -/
def reset_stale_jobs (t : List Jobs) (stale_timeout_minutes : ℚ) (now : ℚ) :
    List Jobs × ℕ :=
  let cutoff := now - stale_timeout_minutes
  let t1 := resetRunningBulkUpdate t now
  let t2 := t1.map fun j =>
    if j.status = QueueStatus.pending ∧ j.updated_at < cutoff then
      { j with status := QueueStatus.pending, updated_at := now }
    else j
  (t2, (t1.filter fun j =>
    decide (j.status = QueueStatus.pending) && decide (j.updated_at < cutoff)).length)

/-- Structured user-visible failures of the service layer (`HTTPException`
with status 404 / 400 / 500 in services/job_service.py). -/
inductive ApiError where
  | notFound (detail : String)
  | validation (detail : String)
  | internal (detail : String)
deriving DecidableEq, Repr

/-- `AsyncBaseRepository.delete` (base_repository.py:223-240): fetch the
non-deleted row, then soft-delete it only when the model class defines a
`soft_delete` method. Neither `Jobs` nor `BaseModel` (models/base_model.py)
defines one, so `hasattr(db_obj, 'soft_delete')` is `False` in both branches
and the function returns `False`, leaving the row untouched. -/
def repoDelete (t : List Jobs) (job_id : ℕ) : List Jobs × Bool :=
  match getJob t job_id with
  | none => (t, false)
  | some _ => (t, false)

/-- `JobService.cancel_job` (job_service.py:168-211): 404 when the job is
missing, 400 when it is not pending; otherwise the status is set to
`cancelled` and the row soft-deleted; if the delete reports failure an HTTP
500 is raised, and the session dependency (db/database.py `get_db`) rolls the
transaction back, so every error case leaves the stored table unchanged. -/
def cancel_job (t : List Jobs) (job_id : ℕ) (now : ℚ) :
    Except ApiError (List Jobs) :=
  match getJob t job_id with
  | none => Except.error (ApiError.notFound "Job not found")
  | some job =>
    if job.status ≠ QueueStatus.pending then
      Except.error (ApiError.validation
        "Cannot cancel job: only pending jobs can be cancelled.")
    else
      let t1 := updateById t job_id fun j =>
        { j with status := QueueStatus.cancelled, updated_at := now }
      let td := repoDelete t1 job_id
      if td.2 then Except.ok td.1
      else Except.error (ApiError.internal "Failed to cancel job")

/-- `AsyncBaseRepository.get_paginated` (base_repository.py:69-81): the
soft-delete filter, then `OFFSET skip LIMIT limit`. -/
def get_paginated (t : List Jobs) (skip limit : ℕ) : List Jobs :=
  (((t.filter fun j => !j.is_deleted).drop skip).take limit)

/-- `AsyncBaseRepository.get_by_condition` (base_repository.py:83-111) at the
equality conditions built by `list_jobs`: soft-delete filter plus the present
equalities; `if limit:` applies the limit only when it is truthy (non-zero). -/
def get_by_condition (t : List Jobs) (queue_name : Option String)
    (status : Option QueueStatus) (job_type : Option String) (limit : ℕ) :
    List Jobs :=
  let rows := t.filter fun j => !j.is_deleted &&
    (match queue_name with | some q => j.queue_name == q | none => true) &&
    (match status with | some s => decide (j.status = s) | none => true) &&
    (match job_type with | some jt => j.job_type == jt | none => true)
  if limit = 0 then rows else rows.take limit

/-- `JobService.list_jobs` (job_service.py:72-116). A falsy `queue_name`
(absent or `""`) adds no condition; enum-typed `status` / `job_type` values
are truthy whenever present. With a non-empty condition dict the code then
evaluates `jobs[skip:skip + limit if skip > 0 else jobs]`, which parses as
`jobs[skip : (skip + limit if skip > 0 else jobs)]`: for `skip > 0` it is the
slice `jobs[skip : skip + limit]`, but for `skip = 0` the slice stop is the
list `jobs` itself and Python raises `TypeError`, which the blanket handler
converts into an HTTP 500. -/
def list_jobs (t : List Jobs) (queue_name : Option String)
    (status : Option QueueStatus) (job_type : Option String)
    (skip limit : ℕ) : Except ApiError (List Jobs) :=
  let qn := match queue_name with
    | some q => if q = "" then none else some q
    | none => none
  if qn.isSome || status.isSome || job_type.isSome then
    let jobs := get_by_condition t qn status job_type limit
    if 0 < skip then Except.ok ((jobs.drop skip).take limit)
    else Except.error (ApiError.internal
      "Failed to list jobs: slice indices must be integers or None or have an __index__ method")
  else Except.ok (get_paginated t skip limit)

/-- Worker state relevant to polling (workers/worker.py:50-70): configured
intervals and backoff factor, the adaptive `current_poll_interval`, the size
of the `active_jobs` set, and the shutdown flag. Python floats are modelled
as exact rationals. -/
structure WorkerState where
  poll_interval : ℚ
  max_poll_interval : ℚ
  backoff_factor : ℚ
  current_poll_interval : ℚ
  active_count : ℕ
  should_shutdown : Bool

/-- `Worker._apply_backoff` (workers/worker.py:483-503): first set
`current_poll_interval = min(current_poll_interval * backoff_factor,
max_poll_interval)`, then sleep for the updated value. Returns the new state
and the slept duration. -/
def apply_backoff (w : WorkerState) : WorkerState × ℚ :=
  let newInterval := min (w.current_poll_interval * w.backoff_factor) w.max_poll_interval
  ({ w with current_poll_interval := newInterval }, newInterval)

/-- The empty-claim branch of `Worker._processing_loop`
(workers/worker.py:329-342): when the claim returned no job, back off only if
no jobs are active, otherwise sleep for the base `poll_interval`. Returns the
new state and the slept duration. -/
def empty_claim_step (w : WorkerState) : WorkerState × ℚ :=
  if w.active_count = 0 then apply_backoff w
  else (w, w.poll_interval)

/-- The `except` branch of `Worker._processing_loop`
(workers/worker.py:352-360): any exception escaping the loop body is logged
and the loop sleeps `poll_interval`; no worker state changes and the shutdown
flag is untouched, so the loop continues on the next iteration. -/
def loop_error_step (w : WorkerState) : WorkerState × ℚ := (w, w.poll_interval)

/-- A store-raised `SQLAlchemyError`, modelled exogenously. -/
inductive StoreError where
  | sqlError (msg : String)
deriving DecidableEq, Repr

/-- `JobRepository.claim_next_job` including its error path
(job_repository.py:56-99): when the store raises, the except clause rolls the
transaction back (`db.rollback()`) and re-raises (`raise`) — it does not
return `None`. The possible store fault is an explicit parameter. -/
def claim_next_job_run (t : List Jobs) (queue_names : List String) (now : ℚ)
    (fault : Option StoreError) : Except StoreError (List Jobs × Option Jobs) :=
  match fault with
  | some e => Except.error e
  | none => Except.ok (claim_next_job t queue_names now)

/-- The handler registry keys (workers/handlers.py:13-22): the `job_type`
properties of `EmailHandler`, `ReportHandler` and `ImageHandler`. The enum
source `constants/job_types.py` is absent from the sources, so the string
values are modelled from the enum member names used by the handlers
(`JobTypes.emails.value` etc.); the claims below depend only on membership,
never on the exact strings. -/
def HANDLERS : List String := ["emails", "report_generation", "images_processing"]

/-- `get_handler` (workers/handlers.py:25-47): registry lookup, raising
`ValueError` for an unregistered job type. -/
def get_handler (job_type : String) : Except String String :=
  if HANDLERS.contains job_type then Except.ok job_type
  else Except.error ("No handler registered for job_type: '" ++ job_type ++ "'")

/-- The handler-lookup stage of `Worker.__process_job_async`
(workers/worker.py:389-420): re-read the job; on `ValueError` from
`get_handler`, mark the job permanently failed with message
`"Invalid job type: " ++ str(e)` and `retry = False` and commit. If
`mark_job_failed` itself raises (the `AttributeError` path), the exception
propagates past the commit to the task's outer `except Exception`
(worker.py:471-478), which swallows it; the session exits uncommitted and
rolls back, so the table is unchanged and the job stays `running`. The
successful-lookup continuation (handler execution) is outside this stage and
leaves the table to the execution path, modelled separately. -/
def process_job_unknown_type (t : List Jobs) (job_id : ℕ) (now : ℚ) : List Jobs :=
  match getJob t job_id with
  | none => t
  | some job =>
    match get_handler job.job_type with
    | Except.ok _ => t
    | Except.error e =>
      match mark_job_failed t job_id ("Invalid job type: " ++ e) false now with
      | Except.ok r => r.1
      | Except.error _ => t

/-! ### Claim C1 -/

/-- Claim C1: for every set of queue names and job-table state, `claim_next_job`
selects among rows with `status = pending`, `queue_name` in the given names,
`scheduled_at ≤ now` and not soft-deleted the row with the smallest
`(scheduled_at, id)` tuple, updates that row in place to `status = running`,
`attempts = attempts + 1`, `updated_at = now`, and returns it; if no such row
exists it returns no job and the table is unchanged; no other row is modified. -/
theorem c1_claim_next_job_spec (t : List Jobs) (queue_names : List String) (now : ℚ) :
    ((claim_next_job t queue_names now).2 = none →
      (claim_next_job t queue_names now).1 = t ∧
        ∀ j ∈ t, eligible now queue_names j = false) ∧
    (∀ r, (claim_next_job t queue_names now).2 = some r →
      ∃ j ∈ t, eligible now queue_names j = true ∧
        (∀ x ∈ t, eligible now queue_names x = true → keyLe j x) ∧
        r = claimedUpdate now j ∧
        (claim_next_job t queue_names now).1 =
          t.map (fun x => if x.id = j.id then claimedUpdate now x else x) ∧
        ∀ x ∈ t, x.id ≠ j.id → x ∈ (claim_next_job t queue_names now).1) := by
  constructor
  · intro hnone
    unfold claim_next_job at *
    cases hpick : pickMin (t.filter (eligible now queue_names)) with
    | none =>
      refine ⟨rfl, ?_⟩
      intro j hj
      have hfil : t.filter (eligible now queue_names) = [] := pickMin_eq_none.mp hpick
      by_cases he : eligible now queue_names j = true
      · exact absurd (hfil ▸ List.mem_filter.mpr ⟨hj, he⟩) (List.not_mem_nil j)
      · simpa using he
    | some c => rw [hpick] at hnone; simp at hnone
  · intro r hr
    unfold claim_next_job at *
    cases hpick : pickMin (t.filter (eligible now queue_names)) with
    | none => rw [hpick] at hr; simp at hr
    | some c =>
      rw [hpick] at hr
      have hr' : claimedUpdate now c = r := Option.some.inj hr
      have hcmem : c ∈ t.filter (eligible now queue_names) := pickMin_mem _ _ hpick
      have hct : c ∈ t := (List.mem_filter.mp hcmem).1
      have hce : eligible now queue_names c = true := (List.mem_filter.mp hcmem).2
      refine ⟨c, hct, hce, ?_, hr'.symm, rfl, ?_⟩
      · intro x hx hxe
        exact pickMin_le _ _ hpick x (List.mem_filter.mpr ⟨hx, hxe⟩)
      · intro x hx hxid
        exact List.mem_map.mpr ⟨x, hx, by simp [hxid]⟩

/-- A pending job row used for concrete instances, with the given id and
schedule time. -/
def wJob (i : ℕ) (s : ℚ) : Jobs :=
  { id := i, queue_name := "default", job_type := "emails", payload := [],
    status := QueueStatus.pending, scheduled_at := s, attempts := 0, max_tries := 3,
    created_at := 0, updated_at := 0, is_deleted := false, deleted_at := none }

/-- A pending job row with id 1 and the given payload, for concrete instances. -/
def wJobPay (p : Payload) : Jobs :=
  { id := 1, queue_name := "default", job_type := "emails", payload := p,
    status := QueueStatus.pending, scheduled_at := 0, attempts := 0, max_tries := 3,
    created_at := 0, updated_at := 0, is_deleted := false, deleted_at := none }

/-- Witness for C1: on a table of two pending jobs where the later id has the
earlier schedule, the claim picks the row with the smaller `(scheduled_at, id)`
key (id 2) and updates only it. -/
theorem c1_claim_next_job_spec_witness :
    ∃ j ∈ [wJob 1 1, wJob 2 0], eligible 0 ["default"] j = true ∧
      (∀ x ∈ [wJob 1 1, wJob 2 0], eligible 0 ["default"] x = true → keyLe j x) ∧
      claimedUpdate 0 (wJob 2 0) = claimedUpdate 0 j ∧
      (claim_next_job [wJob 1 1, wJob 2 0] ["default"] 0).1 =
        ([wJob 1 1, wJob 2 0]).map
          (fun x => if x.id = j.id then claimedUpdate 0 x else x) ∧
      ∀ x ∈ [wJob 1 1, wJob 2 0], x.id ≠ j.id →
        x ∈ (claim_next_job [wJob 1 1, wJob 2 0] ["default"] 0).1 :=
  (c1_claim_next_job_spec [wJob 1 1, wJob 2 0] ["default"] 0).2
    (claimedUpdate 0 (wJob 2 0)) (by rfl)

/-! ### Shared payload lemmas -/

theorem lookupKey_setKey (o : Payload) (k : String) (v : Json) :
    lookupKey (setKey o k v) k = some v := by
  induction o with
  | nil => simp [setKey, lookupKey]
  | cons hd tl ih =>
    obtain ⟨k', v'⟩ := hd
    by_cases h : k' = k <;> simp [setKey, lookupKey, h, ih]

theorem isEmpty_eq_false_of_ne_nil {p : Payload} (hp : p ≠ []) : p.isEmpty = false := by
  cases hc : p with
  | nil => exact absurd hc hp
  | cons a as => rfl

theorem appendError_empty (a : ℤ) (m : String) (n : ℚ) :
    appendError [] a m n = some [] := rfl

theorem appendError_no_errors_key {p : Payload} (a : ℤ) (m : String) (n : ℚ)
    (hp : p ≠ []) (h : lookupKey p "errors" = none) :
    appendError p a m n = some (setKey p "errors" (Json.arr [errorEntry a m n])) := by
  simp [appendError, isEmpty_eq_false_of_ne_nil hp, h]

theorem appendError_array {p : Payload} {xs : List Json} (a : ℤ) (m : String) (n : ℚ)
    (h : lookupKey p "errors" = some (Json.arr xs)) :
    appendError p a m n =
      some (setKey p "errors" (Json.arr (xs ++ [errorEntry a m n]))) := by
  have hp : p ≠ [] := by intro hc; subst hc; simp [lookupKey] at h
  simp [appendError, isEmpty_eq_false_of_ne_nil hp, h]

theorem appendError_eq_none_of_not_appendable {p : Payload} (a : ℤ) (m : String)
    (n : ℚ) (h : ¬ errorsAppendable p) : appendError p a m n = none := by
  unfold errorsAppendable at h
  push_neg at h
  obtain ⟨h1, h2, h3⟩ := h
  have hp : p.isEmpty = false := isEmpty_eq_false_of_ne_nil h1
  cases hv : lookupKey p "errors" with
  | none => exact absurd hv h2
  | some v =>
    cases v with
    | arr xs => exact absurd hv (h3 xs)
    | str s => simp [appendError, hp, hv]
    | num q => simp [appendError, hp, hv]
    | bool b => simp [appendError, hp, hv]
    | null => simp [appendError, hp, hv]
    | obj fs => simp [appendError, hp, hv]

theorem appendError_some_of_appendable (p : Payload) (a : ℤ) (m : String) (n : ℚ)
    (h : errorsAppendable p) : ∃ q, appendError p a m n = some q := by
  rcases h with h | h | ⟨xs, h⟩
  · subst h; exact ⟨[], appendError_empty a m n⟩
  · by_cases hp : p = []
    · subst hp; exact ⟨[], appendError_empty a m n⟩
    · exact ⟨_, appendError_no_errors_key a m n hp h⟩
  · exact ⟨_, appendError_array a m n h⟩

/-! ### Claim C3 -/

/-- Counterexample to C3: on an existing job whose payload binds `"errors"` to
a non-array value (reachable because `JobCreate.payload` is an arbitrary JSON
object), `mark_job_failed` with `retry = false` raises `AttributeError` on
`job.payload["errors"].append` and performs no transition at all — the job's
next status is not `failed`. -/
theorem c3_counterexample_attribute_error :
    mark_job_failed [wJobPay [("errors", Json.num 42)]] 1 "boom" false 0 =
      Except.error (PyError.attributeError "object has no attribute append") ∧
      markFailedTable [wJobPay [("errors", Json.num 42)]] 1 "boom" false 0 =
        [wJobPay [("errors", Json.num 42)]] ∧
      (markFailedTable [wJobPay [("errors", Json.num 42)]] 1 "boom" false 0).map
        Jobs.status = [QueueStatus.pending] := by
  exact ⟨rfl, rfl, rfl⟩

/-- Claim C3 as amended: for every existing job whose payload does not bind
`"errors"` to a non-array value, `mark_job_failed(id, msg, retry)` behaves as
claimed — `retry = false` gives next status `failed` with `scheduled_at`
unchanged; otherwise `attempts < max_tries` gives `pending` with
`scheduled_at = now + 2^(attempts - 1)` minutes and the attempts counter not
decremented; otherwise `failed`. When the payload does bind `"errors"` to a
non-array value, the call raises `AttributeError` and performs no
transition. -/
theorem c3_mark_job_failed_spec (t : List Jobs) (job_id : ℕ) (msg : String)
    (retry : Bool) (now : ℚ) (j : Jobs) (hj : getJob t job_id = some j) :
    (errorsAppendable j.payload →
      ∃ t' r, mark_job_failed t job_id msg retry now = Except.ok (t', some r) ∧
        (retry = false →
          r.status = QueueStatus.failed ∧ r.scheduled_at = j.scheduled_at) ∧
        (retry = true → j.attempts < j.max_tries →
          r.status = QueueStatus.pending ∧
          r.scheduled_at = now + (2 : ℚ) ^ (j.attempts - 1) ∧
          r.attempts = j.attempts) ∧
        (retry = true → ¬ j.attempts < j.max_tries →
          r.status = QueueStatus.failed)) ∧
    (¬ errorsAppendable j.payload →
      mark_job_failed t job_id msg retry now =
        Except.error (PyError.attributeError "object has no attribute append")) := by
  constructor
  · intro hap
    obtain ⟨q, happ⟩ := appendError_some_of_appendable j.payload j.attempts msg now hap
    simp only [mark_job_failed, hj, happ]
    refine ⟨_, _, rfl, ?_, ?_, ?_⟩
    · intro hret
      subst hret
      simp [retryDelayMinutes]
    · intro hret hlt
      subst hret
      simp [retryDelayMinutes, hlt]
    · intro hret hnlt
      subst hret
      simp [hnlt]
  · intro hnap
    simp only [mark_job_failed, hj,
      appendError_eq_none_of_not_appendable j.attempts msg now hnap]

/-- Witness for C3 (amended): on a single fresh pending job (`attempts = 0`,
`max_tries = 3`, empty payload, hence appendable), marking it failed with
`retry = true` yields status pending and `scheduled_at = 0 + 2^(0-1) = 1/2` a
minute ahead. -/
theorem c3_mark_job_failed_spec_witness :
    ∃ t' r, mark_job_failed [wJob 1 0] 1 "boom" true 0 = Except.ok (t', some r) ∧
      (true = false →
        r.status = QueueStatus.failed ∧ r.scheduled_at = (wJob 1 0).scheduled_at) ∧
      (true = true → (wJob 1 0).attempts < (wJob 1 0).max_tries →
        r.status = QueueStatus.pending ∧
        r.scheduled_at = 0 + (2 : ℚ) ^ ((wJob 1 0).attempts - 1) ∧
        r.attempts = (wJob 1 0).attempts) ∧
      (true = true → ¬ (wJob 1 0).attempts < (wJob 1 0).max_tries →
        r.status = QueueStatus.failed) :=
  (c3_mark_job_failed_spec [wJob 1 0] 1 "boom" true 0 (wJob 1 0) (by rfl)).1
    (Or.inl rfl)

/-! ### Claim C8 -/

/-- Counterexample to C8: for an existing job whose payload is the empty
object, `mark_job_failed` appends nothing — the returned row still has the
empty payload and in particular no `payload.errors` array. -/
theorem c8_counterexample_empty_payload :
    (markFailedRow [wJob 1 0] 1 "boom" true 0).map Jobs.payload = some [] ∧
      (markFailedTable [wJob 1 0] 1 "boom" true 0).map Jobs.payload = [[]] := by
  exact ⟨rfl, rfl⟩

/-- Claim C8 as amended: a call to `mark_job_failed` on an existing job whose
payload is a non-empty object appends exactly one `{attempt, error, timestamp}`
entry to `payload.errors` — creating the array (entry at index 0) when the key
is absent, appending to the existing array otherwise — provided the
pre-existing `"errors"` value, if any, is an array; on a job whose payload is
the empty object it appends nothing and the payload stays empty; and when the
payload binds `"errors"` to a non-array value the call raises
`AttributeError` and writes nothing. -/
theorem c8_mark_failed_error_trail (t : List Jobs) (job_id : ℕ) (msg : String)
    (retry : Bool) (now : ℚ) (j : Jobs) (hj : getJob t job_id = some j) :
    (j.payload = [] →
      ∃ t' r, mark_job_failed t job_id msg retry now = Except.ok (t', some r) ∧
        r.payload = []) ∧
    (j.payload ≠ [] → lookupKey j.payload "errors" = none →
      ∃ t' r, mark_job_failed t job_id msg retry now = Except.ok (t', some r) ∧
        lookupKey r.payload "errors" =
          some (Json.arr [errorEntry j.attempts msg now])) ∧
    (∀ xs, lookupKey j.payload "errors" = some (Json.arr xs) →
      ∃ t' r, mark_job_failed t job_id msg retry now = Except.ok (t', some r) ∧
        lookupKey r.payload "errors" =
          some (Json.arr (xs ++ [errorEntry j.attempts msg now]))) ∧
    (¬ errorsAppendable j.payload →
      mark_job_failed t job_id msg retry now =
        Except.error (PyError.attributeError "object has no attribute append")) := by
  refine ⟨?_, ?_, ?_, ?_⟩
  · intro hp
    simp only [mark_job_failed, hj, hp, appendError_empty]
    exact ⟨_, _, rfl, rfl⟩
  · intro hp herr
    simp only [mark_job_failed, hj, appendError_no_errors_key j.attempts msg now hp herr]
    exact ⟨_, _, rfl, lookupKey_setKey _ _ _⟩
  · intro xs herr
    simp only [mark_job_failed, hj, appendError_array j.attempts msg now herr]
    exact ⟨_, _, rfl, lookupKey_setKey _ _ _⟩
  · intro hnap
    simp only [mark_job_failed, hj,
      appendError_eq_none_of_not_appendable j.attempts msg now hnap]

/-- Witness for C8 (amended): a job with payload `{"to": "a@b"}` and no prior
errors gets a one-entry `errors` array. -/
theorem c8_mark_failed_error_trail_witness :
    ∃ t' r, mark_job_failed [wJobPay [("to", Json.str "a@b")]] 1 "boom" true 0 =
      Except.ok (t', some r) ∧
      lookupKey r.payload "errors" =
        some (Json.arr [errorEntry (wJobPay [("to", Json.str "a@b")]).attempts "boom" 0]) :=
  (c8_mark_failed_error_trail [wJobPay [("to", Json.str "a@b")]] 1 "boom" true 0
    (wJobPay [("to", Json.str "a@b")]) (by rfl)).2.1 (by simp [wJobPay]) (by rfl)

/-! ### Claim C4 -/

/-- A running job whose `updated_at` equals the current time (not stale). -/
def runningFresh : Jobs :=
  { id := 1, queue_name := "default", job_type := "emails", payload := [],
    status := QueueStatus.running, scheduled_at := 0, attempts := 1, max_tries := 3,
    created_at := 0, updated_at := 0, is_deleted := false, deleted_at := none }

/-- Claim C4 is violated by the code: `reset_stale_jobs` with a 30-minute
timeout, run at `now = 0` on a single running job whose `updated_at = 0` (so
`updated_at ≥ now - 30`, not stale), nevertheless flips the job to `pending`,
and returns 0 — not the number of jobs it transitioned (1). The claim says
exactly the running jobs with `updated_at < now - T` transition and the count
equals the number transitioned. -/
theorem c4_reset_stale_resets_fresh_running_job :
    (reset_stale_jobs [runningFresh] 30 0).1.map Jobs.status = [QueueStatus.pending] ∧
      (reset_stale_jobs [runningFresh] 30 0).2 = 0 ∧
      runningFresh.status = QueueStatus.running ∧
      ¬ runningFresh.updated_at < 0 - 30 := by
  refine ⟨?_, ?_, rfl, by norm_num [runningFresh]⟩
  · norm_num [reset_stale_jobs, resetRunningBulkUpdate, runningFresh]
  · norm_num [reset_stale_jobs, resetRunningBulkUpdate, runningFresh]

/-! ### Claim C5 -/

/-- Claim C5 is violated by the code: cancelling an existing `pending` job does
not succeed. `AsyncBaseRepository.delete` finds no `soft_delete` method on the
model (neither `Jobs` nor `BaseModel` defines one), returns `False`, and
`cancel_job` turns that into an HTTP 500 "Failed to cancel job"; the session
rollback leaves the job pending and not deleted. -/
theorem c5_cancel_pending_job_fails :
    cancel_job [wJob 1 0] 1 0 = Except.error (ApiError.internal "Failed to cancel job") ∧
      (wJob 1 0).status = QueueStatus.pending := by
  exact ⟨rfl, rfl⟩

/-! ### Claim C10 -/

/-- Claim C10 is violated by the code: a list request with the `queue_name`
filter set and the default `skip = 0` does not return the matching jobs — the
slice `jobs[skip:skip + limit if skip > 0 else jobs]` evaluates its stop bound
to the list itself when `skip = 0`, raising `TypeError`, which the handler
converts to an HTTP 500. With `skip = 1` the same request succeeds, isolating
the failure to the `skip = 0` branch. -/
theorem c10_list_jobs_filtered_default_skip_errors :
    list_jobs [wJob 1 0] (some "default") none none 0 50 =
      Except.error (ApiError.internal
        "Failed to list jobs: slice indices must be integers or None or have an __index__ method") ∧
      list_jobs [wJob 1 0] (some "default") none none 1 50 = Except.ok [] := by
  exact ⟨rfl, rfl⟩

/-! ### Claim C6 -/

/-- Counterexample to C6: a store error during the claim does not make the
claim return "no job available" — with a fault injected, `claim_next_job_run`
on the empty table does not evaluate to `ok (table, none)`. -/
theorem c6_counterexample_error_not_none :
    claim_next_job_run [] ["default"] 0 (some (StoreError.sqlError "connection lost")) ≠
      Except.ok ([], none) := by
  intro h
  exact Except.noConfusion h

/-- Claim C6 as amended: a store error during the claim rolls the transaction
back and is re-raised to the caller (the claim result is exactly the error,
never a fabricated "no job"); the worker's processing loop catches it, sleeps
for `poll_interval`, and leaves its state — including the shutdown flag —
unchanged, so the error is not worker-fatal. -/
theorem c6_claim_error_propagates_loop_survives (t : List Jobs)
    (queue_names : List String) (now : ℚ) (e : StoreError) (w : WorkerState) :
    claim_next_job_run t queue_names now (some e) = Except.error e ∧
      loop_error_step w = (w, w.poll_interval) ∧
      (loop_error_step w).1.should_shutdown = w.should_shutdown := by
  exact ⟨rfl, rfl, rfl⟩

/-! ### Claim C7 -/

/-- An idle worker state mid-backoff: base interval 1s, current interval 2s,
factor 1.5, cap 30s, no active jobs. -/
def w0 : WorkerState :=
  { poll_interval := 1, max_poll_interval := 30, backoff_factor := 3/2,
    current_poll_interval := 2, active_count := 0, should_shutdown := false }

/-- Counterexample to C7: on an empty claim with no active jobs the worker
does not sleep for the old `current_poll_interval` (2) — it sleeps for the
already-updated interval `min(2 * 1.5, 30) = 3`. -/
theorem c7_counterexample_sleeps_new_interval :
    (empty_claim_step w0).2 ≠ w0.current_poll_interval ∧
      (empty_claim_step w0).2 =
        min (w0.current_poll_interval * w0.backoff_factor) w0.max_poll_interval := by
  constructor
  · norm_num [empty_claim_step, apply_backoff, w0]
  · norm_num [empty_claim_step, apply_backoff, w0]

/-- The worker state with `current_poll_interval` replaced. -/
def withInterval (w : WorkerState) (q : ℚ) : WorkerState :=
  { w with current_poll_interval := q }

/-- Claim C7 as amended: on a worker-loop iteration whose claim returns no
job, if the active set is empty the worker first sets
`current_poll_interval = min(current_poll_interval * backoff_factor,
max_poll_interval)` and then sleeps for the updated value; if the active set
is non-empty it sleeps for the base `poll_interval` and leaves
`current_poll_interval` unchanged. -/
theorem c7_empty_claim_backoff_spec (w : WorkerState) :
    (w.active_count = 0 →
      empty_claim_step w =
        (withInterval w (min (w.current_poll_interval * w.backoff_factor) w.max_poll_interval),
          min (w.current_poll_interval * w.backoff_factor) w.max_poll_interval)) ∧
    (w.active_count ≠ 0 → empty_claim_step w = (w, w.poll_interval)) := by
  constructor
  · intro h
    simp [empty_claim_step, apply_backoff, withInterval, h]
  · intro h
    simp [empty_claim_step, h]

/-- Witness for C7 (amended): at the concrete idle state `w0` the step yields
the updated interval 3 and sleeps 3 seconds. -/
theorem c7_empty_claim_backoff_spec_witness :
    empty_claim_step w0 =
      (withInterval w0 (min (w0.current_poll_interval * w0.backoff_factor) w0.max_poll_interval),
        min (w0.current_poll_interval * w0.backoff_factor) w0.max_poll_interval) :=
  (c7_empty_claim_backoff_spec w0).1 rfl

/-! ### Claim C9 -/

theorem claim_next_job_singleton (j : Jobs) (qs : List String) (now : ℚ)
    (h : eligible now qs j = true) :
    claim_next_job [j] qs now = ([claimedUpdate now j], some (claimedUpdate now j)) := by
  simp [claim_next_job, List.filter, h, pickMin]

/-- The table produced by enqueueing a job of the unregistered type `"nope"`
with the empty-object payload, claiming it, and running the worker's
handler-lookup stage. -/
def c9TraceEmptyPayload : List Jobs :=
  process_job_unknown_type
    ((claim_next_job (enqueue_job [] "nope" [] "default" none 3 0 1).1 ["default"] 0).1) 1 0

/-- Counterexample to C9: a claimed job of unregistered type whose payload is
the empty object does end in status `failed`, but its payload is still the
empty object — there is no `payload.errors` array at all, so
`payload.errors[0].error` does not exist, contrary to the claim's universal
statement. -/
theorem c9_counterexample_no_error_entry :
    (getJob c9TraceEmptyPayload 1).map Jobs.status = some QueueStatus.failed ∧
      (getJob c9TraceEmptyPayload 1).map Jobs.payload = some [] := by
  exact ⟨rfl, rfl⟩

/-- Claim C9 as amended: for every claimed job whose `job_type` has no
registered handler, the worker records a permanent failure whenever the
payload's pre-existing `"errors"` value (if any) is an array: the job ends in
status `failed` after exactly one attempt (`attempts = 1`), its
`scheduled_at` is unchanged (no retry scheduled), and a single entry whose
error text starts with "Invalid job type" is appended to `payload.errors` (at
index 0 when the key was absent), while an empty-object payload records no
entry; when the payload binds `"errors"` to a non-array value,
`mark_job_failed` raises `AttributeError`, the worker's task handler swallows
it, nothing is committed, and the job stays `running`. -/
theorem c9_unknown_type_permanent_failure (jt : String) (p : Payload) (mt : ℤ)
    (hjt : HANDLERS.contains jt = false) :
    (errorsAppendable p →
      ∃ r, getJob (process_job_unknown_type
          ((claim_next_job (enqueue_job [] jt p "default" none mt 0 1).1 ["default"] 0).1)
          1 0) 1 = some r ∧
        r.status = QueueStatus.failed ∧
        r.attempts = 1 ∧
        r.scheduled_at = 0 ∧
        (p = [] → r.payload = []) ∧
        (p ≠ [] → lookupKey p "errors" = none →
          ∃ s, lookupKey r.payload "errors" =
            some (Json.arr [errorEntry 1 ("Invalid job type" ++ s) 0])) ∧
        (∀ xs, lookupKey p "errors" = some (Json.arr xs) →
          ∃ s, lookupKey r.payload "errors" =
            some (Json.arr (xs ++ [errorEntry 1 ("Invalid job type" ++ s) 0])))) ∧
    (¬ errorsAppendable p →
      ∃ r, getJob (process_job_unknown_type
          ((claim_next_job (enqueue_job [] jt p "default" none mt 0 1).1 ["default"] 0).1)
          1 0) 1 = some r ∧
        r.status = QueueStatus.running ∧ r.attempts = 1 ∧ r.payload = p) := by
  have he : eligible 0 ["default"]
      { id := 1, queue_name := "default", job_type := jt, payload := p,
        status := QueueStatus.pending, scheduled_at := 0, attempts := 0, max_tries := mt,
        created_at := 0, updated_at := 0, is_deleted := false, deleted_at := none } = true := by
    simp [eligible]
  have henq : (enqueue_job [] jt p "default" none mt 0 1).1 =
      [{ id := 1, queue_name := "default", job_type := jt, payload := p,
         status := QueueStatus.pending, scheduled_at := 0, attempts := 0, max_tries := mt,
         created_at := 0, updated_at := 0, is_deleted := false, deleted_at := none }] := rfl
  rw [henq, claim_next_job_singleton _ _ _ he]
  simp only [claimedUpdate, zero_add]
  have hg : getJob
      [{ id := 1, queue_name := "default", job_type := jt, payload := p,
         status := QueueStatus.running, scheduled_at := 0, attempts := 1, max_tries := mt,
         created_at := 0, updated_at := 0, is_deleted := false, deleted_at := none }] 1 =
      some { id := 1, queue_name := "default", job_type := jt, payload := p,
             status := QueueStatus.running, scheduled_at := 0, attempts := 1, max_tries := mt,
             created_at := 0, updated_at := 0, is_deleted := false, deleted_at := none } := by
    simp [getJob]
  constructor
  · intro hap
    by_cases hp : p = []
    · subst hp
      simp only [process_job_unknown_type, hg, get_handler, hjt, Bool.false_eq_true,
        if_false, mark_job_failed, Bool.false_and, appendError_empty, updateById,
        List.map, and_self, ite_true]
      refine ⟨_, rfl, rfl, rfl, rfl, fun _ => rfl, fun hne _ => absurd rfl hne, ?_⟩
      intro xs hx
      simp [lookupKey] at hx
    · rcases hap with h | hperr | ⟨xs, herr⟩
      · exact absurd h hp
      · simp only [process_job_unknown_type, hg, get_handler, hjt, Bool.false_eq_true,
          if_false, mark_job_failed, Bool.false_and,
          appendError_no_errors_key 1
            ("Invalid job type: " ++ ("No handler registered for job_type: '" ++ jt ++ "'"))
            0 hp hperr,
          updateById, List.map, and_self, ite_true]
        refine ⟨_, rfl, rfl, rfl, rfl, fun h => absurd h hp, ?_, ?_⟩
        · intro _ _
          refine ⟨": " ++ ("No handler registered for job_type: '" ++ jt ++ "'"), ?_⟩
          rw [lookupKey_setKey]
          rw [← String.append_assoc]
          congr 2
        · intro xs hx
          rw [hperr] at hx
          exact Option.noConfusion hx
      · simp only [process_job_unknown_type, hg, get_handler, hjt, Bool.false_eq_true,
          if_false, mark_job_failed, Bool.false_and,
          appendError_array 1
            ("Invalid job type: " ++ ("No handler registered for job_type: '" ++ jt ++ "'"))
            0 herr,
          updateById, List.map, and_self, ite_true]
        refine ⟨_, rfl, rfl, rfl, rfl, fun h => absurd h hp, ?_, ?_⟩
        · intro _ hnone
          rw [herr] at hnone
          exact Option.noConfusion hnone
        · intro xs' hx
          rw [herr] at hx
          have hxx : Json.arr xs = Json.arr xs' := Option.some.inj hx
          have hxs : xs = xs' := by injection hxx
          subst hxs
          refine ⟨": " ++ ("No handler registered for job_type: '" ++ jt ++ "'"), ?_⟩
          rw [lookupKey_setKey]
          rw [← String.append_assoc]
          congr 2
  · intro hnap
    simp only [process_job_unknown_type, hg, get_handler, hjt, Bool.false_eq_true,
      if_false, mark_job_failed, Bool.false_and,
      appendError_eq_none_of_not_appendable 1
        ("Invalid job type: " ++ ("No handler registered for job_type: '" ++ jt ++ "'"))
        0 hnap]
    exact ⟨_, rfl, rfl, rfl, rfl⟩

/-- Witness for C9 (amended), at job type `"nope"` with payload `{"to": "a@b"}`
(appendable: no pre-existing errors key). -/
theorem c9_unknown_type_permanent_failure_witness :
    ∃ r, getJob (process_job_unknown_type
        ((claim_next_job
          (enqueue_job [] "nope" [("to", Json.str "a@b")] "default" none 3 0 1).1
          ["default"] 0).1) 1 0) 1 = some r ∧
      r.status = QueueStatus.failed ∧
      r.attempts = 1 ∧
      r.scheduled_at = 0 ∧
      (([("to", Json.str "a@b")] : Payload) = [] → r.payload = []) ∧
      ([("to", Json.str "a@b")] ≠ ([] : Payload) →
        lookupKey [("to", Json.str "a@b")] "errors" = none →
        ∃ s, lookupKey r.payload "errors" =
          some (Json.arr [errorEntry 1 ("Invalid job type" ++ s) 0])) ∧
      (∀ xs, lookupKey [("to", Json.str "a@b")] "errors" = some (Json.arr xs) →
        ∃ s, lookupKey r.payload "errors" =
          some (Json.arr (xs ++ [errorEntry 1 ("Invalid job type" ++ s) 0]))) :=
  (c9_unknown_type_permanent_failure "nope" [("to", Json.str "a@b")] 3 (by rfl)).1
    (Or.inr (Or.inl rfl))

/-! ### Claim C2 -/

/-- Job tables reachable through the store operations named by the claim
(enqueue, claim, mark-failed, stale reset, manual retry); payloads, queue
names, ids and wall-clock times are free in each step. -/
inductive Reachable : List Jobs → Prop where
  | empty : Reachable []
  | enqueue (t : List Jobs) (jt : String) (p : Payload) (qn : String)
      (sa : Option ℚ) (mt : ℤ) (now : ℚ) (i : ℕ) :
      Reachable t → Reachable (enqueue_job t jt p qn sa mt now i).1
  | claim (t : List Jobs) (qs : List String) (now : ℚ) :
      Reachable t → Reachable (claim_next_job t qs now).1
  | markFailed (t : List Jobs) (job_id : ℕ) (msg : String) (retry : Bool) (now : ℚ) :
      Reachable t → Reachable (markFailedTable t job_id msg retry now)
  | resetStale (t : List Jobs) (timeout now : ℚ) :
      Reachable t → Reachable (reset_stale_jobs t timeout now).1
  | retryFailed (t : List Jobs) (job_id : ℕ) (ra : Bool) (now : ℚ) :
      Reachable t → Reachable (retry_failed_job t job_id ra now).1

theorem reachable_attempts_nonneg :
    ∀ t, Reachable t → ∀ j ∈ t, 0 ≤ j.attempts := by
  intro t ht
  induction ht with
  | empty => intro j hj; simp at hj
  | enqueue t jt p qn sa mt now i ht ih =>
    intro j hj
    rcases List.mem_append.mp hj with h1 | h2
    · exact ih j h1
    · simp at h2; subst h2; exact le_refl 0
  | claim t qs now ht ih =>
    intro j hj
    unfold claim_next_job at hj
    cases hpick : pickMin (t.filter (eligible now qs)) with
    | none => rw [hpick] at hj; exact ih j hj
    | some c =>
      rw [hpick] at hj
      obtain ⟨y, hy, hyx⟩ := List.mem_map.mp hj
      by_cases hid : y.id = c.id
      · rw [if_pos hid] at hyx
        subst hyx
        have := ih y hy
        simp only [claimedUpdate]
        omega
      · rw [if_neg hid] at hyx
        subst hyx
        exact ih y hy
  | markFailed t job_id msg retry now ht ih =>
    intro j hj
    unfold markFailedTable mark_job_failed at hj
    cases hget : getJob t job_id with
    | none => rw [hget] at hj; exact ih j hj
    | some job =>
      rw [hget] at hj
      cases happ : appendError job.payload job.attempts msg now with
      | none => simp only [happ] at hj; exact ih j hj
      | some q =>
        simp only [happ, updateById, List.mem_map] at hj
        obtain ⟨y, hy, hyx⟩ := hj
        by_cases hc : y.id = job_id ∧ y.is_deleted = false
        · rw [if_pos hc] at hyx
          subst hyx
          exact ih y hy
        · rw [if_neg hc] at hyx
          subst hyx
          exact ih y hy
  | resetStale t timeout now ht ih =>
    intro j hj
    unfold reset_stale_jobs at hj
    simp only [resetRunningBulkUpdate, List.mem_map] at hj
    obtain ⟨y, ⟨z, hz, hzy⟩, hyx⟩ := hj
    have hz0 : 0 ≤ z.attempts := ih z hz
    have hy0 : 0 ≤ y.attempts := by
      by_cases hzc : z.status = QueueStatus.running
      · rw [if_pos hzc] at hzy; subst hzy; exact hz0
      · rw [if_neg hzc] at hzy; subst hzy; exact hz0
    by_cases hyc : y.status = QueueStatus.pending ∧ y.updated_at < now - timeout
    · rw [if_pos hyc] at hyx; subst hyx; exact hy0
    · rw [if_neg hyc] at hyx; subst hyx; exact hy0
  | retryFailed t job_id ra now ht ih =>
    intro j hj
    unfold retry_failed_job at hj
    cases hget : getJob t job_id with
    | none => rw [hget] at hj; exact ih j hj
    | some job =>
      rw [hget] at hj
      by_cases hst : job.status ≠ QueueStatus.failed
      · simp only [if_pos hst] at hj; exact ih j hj
      · simp only [if_neg hst, updateById, List.mem_map] at hj
        obtain ⟨y, hy, hyx⟩ := hj
        by_cases hc : y.id = job_id ∧ y.is_deleted = false
        · rw [if_pos hc] at hyx
          subst hyx
          simp only []
          by_cases hra : ra = true
          · simp [hra]
          · simp only [Bool.not_eq_true] at hra
            simp [hra]
            exact ih y hy
        · rw [if_neg hc] at hyx
          subst hyx
          exact ih y hy

/-- Trace exhibiting `attempts > max_tries`: enqueue with `max_tries = 1`. -/
def tr1 : List Jobs := (enqueue_job [] "emails" [] "default" none 1 0 1).1

/-- The job is claimed (`attempts = 1`). -/
def tr2 : List Jobs := (claim_next_job tr1 ["default"] 0).1

/-- The execution fails; `attempts = max_tries = 1`, so the job goes to
`failed` (the empty payload is appendable, so the write succeeds). -/
def tr3 : List Jobs := markFailedTable tr2 1 "boom" true 0

/-- An operator retries the failed job with `reset_attempts = false`; the job
is `pending` again with `attempts = 1 = max_tries`. -/
def tr4 : List Jobs := (retry_failed_job tr3 1 false 0).1

/-- The pending job is claimed again: `attempts = 2 > max_tries = 1`. -/
def tr5 : List Jobs := (claim_next_job tr4 ["default"] 0).1

/-- The single row of `tr5`. -/
def trFinal : Jobs :=
  { id := 1, queue_name := "default", job_type := "emails", payload := [],
    status := QueueStatus.running, scheduled_at := 0, attempts := 2, max_tries := 1,
    created_at := 0, updated_at := 0, is_deleted := false, deleted_at := none }

/-- The single row of `tr3` (the failed job before the manual retry). -/
def trFailed : Jobs :=
  { id := 1, queue_name := "default", job_type := "emails", payload := [],
    status := QueueStatus.failed, scheduled_at := 0, attempts := 1, max_tries := 1,
    created_at := 0, updated_at := 0, is_deleted := false, deleted_at := none }

theorem reachable_tr5 : Reachable tr5 :=
  Reachable.claim tr4 ["default"] 0
    (Reachable.retryFailed tr3 1 false 0
      (Reachable.markFailed tr2 1 "boom" true 0
        (Reachable.claim tr1 ["default"] 0
          (Reachable.enqueue [] "emails" [] "default" none 1 0 1 Reachable.empty))))

theorem tr5_eq : tr5 = [trFinal] := by rfl

/-- Counterexample to C2: `attempts ≤ max_tries` is not an invariant of the
store operations — after enqueue (`max_tries = 1`), claim, failure, manual
retry with `reset_attempts = false`, and a second claim, the job has
`attempts = 2 > max_tries = 1`. -/
theorem c2_counterexample_attempts_exceed_max :
    ¬ (∀ t, Reachable t → ∀ j ∈ t, 0 ≤ j.attempts ∧ j.attempts ≤ j.max_tries) := by
  intro hcl
  have hmem : trFinal ∈ tr5 := by rw [tr5_eq]; exact List.mem_singleton.mpr rfl
  have h := (hcl tr5 reachable_tr5 trFinal hmem).2
  simp only [trFinal] at h
  omega

/-- Claim C2 as amended: in every state reachable through the store
operations, `0 ≤ attempts` holds for every job, and a job whose latest
execution failed while `attempts ≥ max_tries` is placed in status `failed`
with `scheduled_at` and `attempts` unchanged (never re-scheduled
automatically); however `attempts ≤ max_tries` is not preserved — claiming a
job that re-entered `pending` with `attempts = max_tries` (after a stale
reset or a manual retry with `reset_attempts = false`) makes
`attempts = max_tries + 1`. -/
theorem c2_attempts_invariant_amended :
    (∀ t, Reachable t → ∀ j ∈ t, 0 ≤ j.attempts) ∧
    (∀ (t : List Jobs) (job_id : ℕ) (msg : String) (now : ℚ) (j : Jobs),
      getJob t job_id = some j → j.max_tries ≤ j.attempts →
      ∀ t' r, mark_job_failed t job_id msg true now = Except.ok (t', some r) →
        r.status = QueueStatus.failed ∧ r.scheduled_at = j.scheduled_at ∧
        r.attempts = j.attempts) := by
  refine ⟨reachable_attempts_nonneg, ?_⟩
  intro t job_id msg now j hget hle t' r hr
  have hnot : ¬ j.attempts < j.max_tries := not_lt.mpr hle
  simp only [mark_job_failed, hget, hnot, decide_False, Bool.and_false,
    Bool.false_eq_true, if_false] at hr
  cases happ : appendError j.payload j.attempts msg now with
  | none => rw [happ] at hr; cases hr
  | some q =>
    rw [happ] at hr
    simp only [Except.ok.injEq, Prod.mk.injEq, Option.some.injEq] at hr
    obtain ⟨-, hrr⟩ := hr
    subst hrr
    exact ⟨rfl, rfl, rfl⟩

/-- Witness for C2 (amended), applied at the concrete trace: the reachable
state `tr5` satisfies `0 ≤ attempts`, and marking the maxed-out failed job of
`tr3` as failed again keeps it `failed`, unscheduled, and at the same
attempt count. -/
theorem c2_attempts_invariant_amended_witness :
    0 ≤ trFinal.attempts ∧
      ∃ t' r, mark_job_failed tr3 1 "boom again" true 0 = Except.ok (t', some r) ∧
        r.status = QueueStatus.failed ∧ r.scheduled_at = trFailed.scheduled_at ∧
        r.attempts = trFailed.attempts := by
  constructor
  · exact c2_attempts_invariant_amended.1 tr5 reachable_tr5 trFinal
      (by rw [tr5_eq]; exact List.mem_singleton.mpr rfl)
  · exact ⟨_, _, rfl,
      c2_attempts_invariant_amended.2 tr3 1 "boom again" 0 trFailed rfl (le_refl _) _ _ rfl⟩

end JobQueue
